import Mathlib

/-!
# User management service: store handlers and paginated listing

A shallow embedding of `main.go`.  The global `users` map becomes an explicit
store value threaded through the handlers; the external collaborators
(`time.Now`, `uuid.New`, the JSON decoder, `strings.EqualFold`, the order in
which `range` walks a map) become explicit inputs of the handlers.
Go `int` is 64-bit two's complement: arithmetic is done on `Int` and wrapped.
-/

namespace UserService

/-! ## Data model -/

/-- Instants as produced by `time.Now()`; the zero value of `time.Time` is `0`. -/
abbrev Time := Int

/-- The `User` struct of `main.go`. -/
structure User where
  ID : String
  FirstName : String
  LastName : String
  Nickname : String
  Password : String
  Email : String
  Country : String
  CreatedAt : Time
  UpdatedAt : Time
  deriving DecidableEq, Repr

/-- The zero value of `User`, i.e. what `var user User` declares. -/
def User.zero : User := ⟨"", "", "", "", "", "", "", 0, 0⟩

/-- The global `users` map: a finite map from id to record. -/
abbrev Store := AList (fun _ : String => User)

/-- A JSON object that decodes without error: each key of the `User` struct
is either present with a value or absent. -/
structure Payload where
  id : Option String
  first_name : Option String
  last_name : Option String
  nickname : Option String
  password : Option String
  email : Option String
  country : Option String
  created_at : Option Time
  updated_at : Option Time
  deriving DecidableEq, Repr

/-- Effect of `json.NewDecoder(r.Body).Decode(&u)` when it succeeds: keys
present in the body overwrite the field, absent keys leave it untouched. -/
def Payload.decodeInto (p : Payload) (u : User) : User :=
  { ID := p.id.getD u.ID
    FirstName := p.first_name.getD u.FirstName
    LastName := p.last_name.getD u.LastName
    Nickname := p.nickname.getD u.Nickname
    Password := p.password.getD u.Password
    Email := p.email.getD u.Email
    Country := p.country.getD u.Country
    CreatedAt := p.created_at.getD u.CreatedAt
    UpdatedAt := p.updated_at.getD u.UpdatedAt }

/-- What a handler writes to the `http.ResponseWriter`. -/
inductive Body where
  | text (msg : String)
  | user (u : User)
  | list (total : Int) (users : List User)
  | empty
  deriving DecidableEq, Repr

/-- Status code and body of an answered request. -/
structure Response where
  status : Nat
  body : Body
  deriving DecidableEq, Repr

def StatusOK : Nat := 200
def StatusCreated : Nat := 201
def StatusNoContent : Nat := 204
def StatusBadRequest : Nat := 400
def StatusNotFound : Nat := 404

/-- The call `http.Error(w, msg, code)`. -/
def httpError (msg : String) (code : Nat) : Response := ⟨code, Body.text msg⟩

/-! ## Library functions used by the handlers -/

/-- Largest and smallest values of Go `int` on a 64-bit platform. -/
def maxInt : Int := 9223372036854775807
def minInt : Int := -9223372036854775808

/-- Result of a Go `int` operation whose mathematical value is `x`:
two's-complement wrap-around into `[minInt, maxInt]`. -/
def wrapInt (x : Int) : Int :=
  (x + 9223372036854775808) % 18446744073709551616 - 9223372036854775808

/-- The call `strings.TrimPrefix(s, pre)`. -/
def TrimPrefix (s pre : String) : String :=
  if pre.data.isPrefixOf s.data then ⟨s.data.drop pre.data.length⟩ else s

/-- Value of a string of decimal digits. -/
def digitsValue (ds : List Char) : Nat :=
  ds.foldl (fun n ch => n * 10 + (ch.toNat - 48)) 0

/-- The call `strconv.Atoi(s)`: an optional sign followed by one or more
decimal digits, whose value fits a 64-bit `int`; `none` stands for a non-nil
`err`. -/
def Atoi (s : String) : Option Int :=
  let signed : Bool × List Char :=
    match s.data with
    | '+' :: rest => (false, rest)
    | '-' :: rest => (true, rest)
    | cs => (false, cs)
  let ds := signed.2
  if ds.isEmpty then none
  else if ds.all Char.isDigit then
    let n : Int := if signed.1 then -(digitsValue ds : Int) else (digitsValue ds : Int)
    if minInt ≤ n ∧ n ≤ maxInt then some n else none
  else none

/-- An ASCII-only instance of `strings.EqualFold`, used to run examples. -/
def asciiEqualFold (s t : String) : Bool :=
  s.data.map Char.toLower == t.data.map Char.toLower

/-! ## Handlers -/

/-- `AddUser`.  `body` is the outcome of decoding the request body (`none`:
the decoder returned an error), `newID` the string of `uuid.New()`, `now₁`
and `now₂` the two successive results of `time.Now()`. -/
def AddUser (users : Store) (body : Option Payload) (newID : String)
    (now₁ now₂ : Time) : Store × Response :=
  match body with
  | none => (users, httpError "Invalid input" StatusBadRequest)
  | some p =>
    let user := p.decodeInto User.zero
    let user := { user with ID := newID }
    let user := { user with CreatedAt := now₁ }
    let user := { user with UpdatedAt := now₂ }
    (users.insert user.ID user, ⟨StatusCreated, Body.user user⟩)

/-- `GetUser`. -/
def GetUser (users : Store) (path : String) : Store × Response :=
  let id := TrimPrefix path "/users/"
  match users.lookup id with
  | none => (users, httpError "User not found" StatusNotFound)
  | some user => (users, ⟨StatusOK, Body.user user⟩)

/-- The loop `for _, user := range users { if ... { append } }` of
`ListUsers`, run over the sequence `rng` of values that `range` yields. -/
def filterUsers (EqualFold : String → String → Bool) (rng : List User)
    (countryFilter : String) : List User :=
  rng.foldl
    (fun filteredUsers user =>
      if countryFilter == "" || EqualFold user.Country countryFilter then
        filteredUsers ++ [user]
      else filteredUsers)
    []

/-- Lines 79-82 of `ListUsers`: the page number used for the request. -/
def parsePage (pageStr : String) : Int :=
  match Atoi pageStr with
  | none => 1
  | some page => if page < 1 then 1 else page

/-- Lines 83-86 of `ListUsers`: the page size used for the request. -/
def parsePageSize (pageSizeStr : String) : Int :=
  match Atoi pageSizeStr with
  | none => 10
  | some pageSize => if pageSize < 1 then 10 else pageSize

/-- Lines 88-121 of `ListUsers`: filter, window, slice, respond.  The result
is `none` when the slice expression `filteredUsers[start:end]` panics, which
it does unless `0 ≤ start ≤ end ≤ cap`; `end ≤ total ≤ cap` always holds
after the clamp of `end`. -/
def listPage (EqualFold : String → String → Bool) (rng : List User)
    (page pageSize : Int) (countryFilter : String) : Option Response :=
  let filteredUsers := filterUsers EqualFold rng countryFilter
  let total : Int := filteredUsers.length
  let start := wrapInt (wrapInt (page - 1) * pageSize)
  let start := if start ≥ total then total else start
  let end_ := wrapInt (start + pageSize)
  let end_ := if end_ > total then total else end_
  if 0 ≤ start ∧ start ≤ end_ then
    let paginatedUsers := (filteredUsers.drop start.toNat).take (end_ - start).toNat
    some ⟨StatusOK, Body.list total paginatedUsers⟩
  else none

/-- `ListUsers`.  `pageStr`, `pageSizeStr` and `countryFilter` are the three
values of `r.URL.Query().Get` (the empty string when the parameter is
absent); `rng` is the sequence of values yielded by `range users`. -/
def ListUsers (EqualFold : String → String → Bool) (rng : List User)
    (pageStr pageSizeStr countryFilter : String) : Option Response :=
  listPage EqualFold rng (parsePage pageStr) (parsePageSize pageSizeStr) countryFilter

/-- `UpdateUser`.  `now` is the result of `time.Now()`. -/
def UpdateUser (users : Store) (path : String) (body : Option Payload)
    (now : Time) : Store × Response :=
  let id := TrimPrefix path "/users/"
  match body with
  | none => (users, httpError "Invalid input" StatusBadRequest)
  | some p =>
    let updatedUser := p.decodeInto User.zero
    match users.lookup id with
    | none => (users, httpError "User not found" StatusNotFound)
    | some user =>
      let updatedUser := { updatedUser with ID := id }
      let updatedUser := { updatedUser with CreatedAt := user.CreatedAt }
      let updatedUser := { updatedUser with UpdatedAt := now }
      (users.insert id updatedUser, ⟨StatusOK, Body.user updatedUser⟩)

/-- `DeleteUser`. -/
def DeleteUser (users : Store) (path : String) : Store × Response :=
  let id := TrimPrefix path "/users/"
  match users.lookup id with
  | none => (users, httpError "User not found" StatusNotFound)
  | some _ => (users.erase id, ⟨StatusNoContent, Body.empty⟩)

/-! ## Specification vocabulary -/

/-- The sequence `rng` is a possible outcome of `range users`: every entry of
the map exactly once, in any order. -/
def IsRange (users : Store) (rng : List User) : Prop :=
  rng.Perm (users.entries.map (fun e => e.2))

instance (users : Store) (rng : List User) : Decidable (IsRange users rng) := by
  unfold IsRange; infer_instance

/-- The filter condition of `ListUsers`. -/
def matchesCountry (EqualFold : String → String → Bool) (countryFilter : String)
    (user : User) : Bool :=
  countryFilter == "" || EqualFold user.Country countryFilter

/-- The records held by the store. -/
def storedUsers (users : Store) : List User :=
  users.entries.map (fun e => e.2)

/-- Number of stored users that pass the filter of `ListUsers`. -/
def countMatching (EqualFold : String → String → Bool) (users : Store)
    (countryFilter : String) : Nat :=
  (storedUsers users).countP (matchesCountry EqualFold countryFilter)

/-- Stores that the handlers can produce from the empty map. -/
inductive Reachable : Store → Prop
  | init : Reachable ∅
  | add {users : Store} (h : Reachable users) (body : Option Payload) (newID : String)
      (now₁ now₂ : Time) : Reachable (AddUser users body newID now₁ now₂).1
  | update {users : Store} (h : Reachable users) (path : String) (body : Option Payload)
      (now : Time) : Reachable (UpdateUser users path body now).1
  | delete {users : Store} (h : Reachable users) (path : String) :
      Reachable (DeleteUser users path).1

/-- Every record is stored under its own `ID`. -/
def WellKeyed (users : Store) : Prop :=
  ∀ (k : String) (u : User), users.lookup k = some u → u.ID = k

/-! ## Examples -/

def uk1 : User := ⟨"1", "Alice", "Smith", "", "", "", "UK", 5, 5⟩
def uk2 : User := ⟨"2", "Bob", "Johnson", "", "", "", "UK", 6, 6⟩
def uk3 : User := ⟨"3", "Charlie", "Brown", "", "", "", "uk", 7, 7⟩
def in4 : User := ⟨"4", "Shri", "Williams", "", "", "", "India", 8, 8⟩

/-- The four users of `TestListUsersPagination`. -/
def testStore : Store :=
  ((((∅ : Store).insert "1" uk1).insert "2" uk2).insert "3" uk3).insert "4" in4

def testRange : List User := [uk2, in4, uk1, uk3]

def alice : Payload :=
  ⟨none, some "Alice", some "Smith", some "alice123", some "securepassword",
   some "alice@smith.com", some "UK", none, none⟩

/-! ## Auxiliary lemmas -/

theorem wrapInt_of_inRange (x : Int) (hlo : minInt ≤ x) (hhi : x ≤ maxInt) :
    wrapInt x = x := by
  unfold wrapInt
  unfold minInt at hlo
  unfold maxInt at hhi
  omega

theorem filterUsers_foldl (EqualFold : String → String → Bool) (countryFilter : String)
    (rng acc : List User) :
    rng.foldl
      (fun filteredUsers user =>
        if countryFilter == "" || EqualFold user.Country countryFilter then
          filteredUsers ++ [user]
        else filteredUsers)
      acc
    = acc ++ rng.filter (matchesCountry EqualFold countryFilter) := by
  induction rng generalizing acc with
  | nil => simp
  | cons u rest ih =>
    rw [List.foldl_cons, ih]
    by_cases hu : matchesCountry EqualFold countryFilter u = true
    · have hu2 := hu
      unfold matchesCountry at hu2
      rw [if_pos hu2, List.filter_cons_of_pos hu]
      simp
    · have hu2 := hu
      unfold matchesCountry at hu2
      rw [if_neg hu2, List.filter_cons_of_neg hu]

theorem filterUsers_eq_filter (EqualFold : String → String → Bool) (rng : List User)
    (countryFilter : String) :
    filterUsers EqualFold rng countryFilter
      = rng.filter (matchesCountry EqualFold countryFilter) := by
  unfold filterUsers
  rw [filterUsers_foldl]
  simp

theorem Atoi_inRange (s : String) (v : Int) (h : Atoi s = some v) :
    minInt ≤ v ∧ v ≤ maxInt := by
  unfold Atoi at h
  simp only at h
  split_ifs at h with h1 h2 h3 h4 h4 <;> (cases h; exact h4)

theorem TrimPrefix_append (pre id : String) : TrimPrefix (pre ++ id) pre = id := by
  unfold TrimPrefix
  have h : pre.data.isPrefixOf (pre ++ id).data = true := by
    rw [String.data_append, List.isPrefixOf_iff_prefix]
    exact List.prefix_append _ _
  rw [if_pos h, String.data_append, List.drop_left]

/-- When the window arithmetic does not overflow, `listPage` answers with the
total and the slice `[s, s + pageSize)` of the filtered list. -/
theorem listPage_of_window (EqualFold : String → String → Bool) (rng : List User)
    (page pageSize : Int) (countryFilter : String) (s : Int)
    (hstart : wrapInt (wrapInt (page - 1) * pageSize) = s)
    (hs0 : 0 ≤ s) (hsize : 1 ≤ pageSize)
    (hend : min s (filterUsers EqualFold rng countryFilter).length + pageSize ≤ maxInt) :
    listPage EqualFold rng page pageSize countryFilter
      = some ⟨StatusOK, Body.list (filterUsers EqualFold rng countryFilter).length
          (((filterUsers EqualFold rng countryFilter).drop s.toNat).take pageSize.toNat)⟩ := by
  unfold listPage
  simp only [hstart]
  generalize hf : filterUsers EqualFold rng countryFilter = filtered at *
  have hlen : (0 : Int) ≤ (filtered.length : Int) := Int.ofNat_nonneg _
  by_cases hge : s ≥ (filtered.length : Int)
  · -- the page starts at or after the end of the filtered list
    rw [if_pos hge]
    have hmin : min s (filtered.length : Int) = filtered.length := min_eq_right hge
    rw [hmin] at hend
    have hw : wrapInt ((filtered.length : Int) + pageSize) = filtered.length + pageSize :=
      wrapInt_of_inRange _ (by unfold minInt; omega) hend
    have hgt : (filtered.length : Int) + pageSize > filtered.length := by omega
    have hok : (0 : Int) ≤ filtered.length ∧ (filtered.length : Int) ≤ filtered.length :=
      ⟨hlen, le_refl _⟩
    rw [hw, if_pos hgt, if_pos hok]
    have h1 : filtered.drop s.toNat = [] := by
      apply List.drop_eq_nil_of_le
      omega
    have h2 : filtered.drop (filtered.length : Int).toNat = [] := by
      apply List.drop_eq_nil_of_le
      simp
    rw [h1, h2]
    simp
  · rw [if_neg hge]
    have hlt : s < (filtered.length : Int) := not_le.mp hge
    have hmin : min s (filtered.length : Int) = s := min_eq_left (le_of_lt hlt)
    rw [hmin] at hend
    have hw : wrapInt (s + pageSize) = s + pageSize :=
      wrapInt_of_inRange _ (by unfold minInt; omega) hend
    rw [hw]
    by_cases hover : s + pageSize > (filtered.length : Int)
    · have hok : 0 ≤ s ∧ s ≤ (filtered.length : Int) := ⟨hs0, le_of_lt hlt⟩
      rw [if_pos hover, if_pos hok]
      congr 2
      congr 1
      rw [List.take_of_length_le, List.take_of_length_le]
      · rw [List.length_drop]; omega
      · rw [List.length_drop]; omega
    · have hok : 0 ≤ s ∧ s ≤ s + pageSize := ⟨hs0, by omega⟩
      rw [if_neg hover, if_pos hok]
      congr 2
      congr 1
      congr 1
      omega

theorem parsePage_of_pos (pageStr : String) (page : Int) (h : Atoi pageStr = some page)
    (hp : 1 ≤ page) : parsePage pageStr = page := by
  unfold parsePage
  rw [h]
  simp only
  rw [if_neg (by omega)]

theorem parsePageSize_of_pos (pageSizeStr : String) (pageSize : Int)
    (h : Atoi pageSizeStr = some pageSize) (hp : 1 ≤ pageSize) :
    parsePageSize pageSizeStr = pageSize := by
  unfold parsePageSize
  rw [h]
  simp only
  rw [if_neg (by omega)]

theorem parsePage_bounds (pageStr : String) :
    1 ≤ parsePage pageStr ∧ parsePage pageStr ≤ maxInt := by
  unfold parsePage
  cases h : Atoi pageStr with
  | none => simp [maxInt]
  | some page =>
    have hr := Atoi_inRange _ _ h
    simp only
    split_ifs with hlt
    · simp [maxInt]
    · exact ⟨by omega, hr.2⟩

theorem parsePageSize_bounds (pageSizeStr : String) :
    1 ≤ parsePageSize pageSizeStr ∧ parsePageSize pageSizeStr ≤ maxInt := by
  unfold parsePageSize
  cases h : Atoi pageSizeStr with
  | none => simp [maxInt]
  | some pageSize =>
    have hr := Atoi_inRange _ _ h
    simp only
    split_ifs with hlt
    · simp [maxInt]
    · exact ⟨by omega, hr.2⟩

theorem filterUsers_length (EqualFold : String → String → Bool) (users : Store)
    (rng : List User) (hrng : IsRange users rng) (countryFilter : String) :
    (filterUsers EqualFold rng countryFilter).length
      = countMatching EqualFold users countryFilter := by
  rw [filterUsers_eq_filter, ← List.countP_eq_length_filter]
  exact List.Perm.countP_eq _ hrng

/-- Whatever `listPage` answers is the total and a part of the filtered list. -/
theorem listPage_some (EqualFold : String → String → Bool) (rng : List User)
    (page pageSize : Int) (countryFilter : String) (resp : Response)
    (h : listPage EqualFold rng page pageSize countryFilter = some resp) :
    ∃ paginatedUsers,
      resp = ⟨StatusOK, Body.list (filterUsers EqualFold rng countryFilter).length
        paginatedUsers⟩ ∧
      ∀ u ∈ paginatedUsers, u ∈ filterUsers EqualFold rng countryFilter := by
  unfold listPage at h
  simp only at h
  split_ifs at h with h1 h2 h3 <;>
    (cases h
     exact ⟨_, rfl, fun u hu => List.mem_of_mem_drop (List.mem_of_mem_take hu)⟩)

/-- The window arithmetic of `listPage` does not overflow when
`page * pageSize` fits a Go `int`. -/
theorem listPage_no_overflow (EqualFold : String → String → Bool) (rng : List User)
    (page pageSize : Int) (countryFilter : String)
    (hp : 1 ≤ page) (hs : 1 ≤ pageSize) (hfit : page * pageSize ≤ maxInt) :
    listPage EqualFold rng page pageSize countryFilter
      = some ⟨StatusOK, Body.list (filterUsers EqualFold rng countryFilter).length
          (((filterUsers EqualFold rng countryFilter).drop
              ((page - 1) * pageSize).toNat).take pageSize.toNat)⟩ := by
  have hmul : (page - 1) * pageSize = page * pageSize - pageSize := by ring
  have hnn : 0 ≤ (page - 1) * pageSize := mul_nonneg (by omega) (by omega)
  have hpage : page ≤ page * pageSize := le_mul_of_one_le_right (by omega) hs
  have hw1 : wrapInt (page - 1) = page - 1 :=
    wrapInt_of_inRange _ (by unfold minInt; omega) (by omega)
  have hw2 : wrapInt ((page - 1) * pageSize) = (page - 1) * pageSize :=
    wrapInt_of_inRange _ (by unfold minInt; omega) (by omega)
  apply listPage_of_window EqualFold rng page pageSize countryFilter _ _ hnn hs
  · have hmin : min ((page - 1) * pageSize)
        ((filterUsers EqualFold rng countryFilter).length : Int) ≤ (page - 1) * pageSize :=
      min_le_left _ _
    omega
  · rw [hw1, hw2]

/-! ## Paginated listing -/

/-- C1: for a store of fewer than 2^62 users (any store a 64-bit process can
hold), a filter, and parsed `page ≥ 1`, `pageSize ≥ 1` with
`(page-1)*pageSize < total`, where `total` is the number of stored users
matching the filter, `ListUsers` answers 200 with `total` and with exactly
`min pageSize (total - (page-1)*pageSize)` users: the elements at positions
`[(page-1)*pageSize, min ((page-1)*pageSize + pageSize) total)` of the
filtered list it built. -/
theorem ListUsers_in_range_page (EqualFold : String → String → Bool) (users : Store)
    (rng : List User) (pageStr pageSizeStr countryFilter : String) (page pageSize : Int)
    (hrng : IsRange users rng)
    (hcap : (users.entries.length : Int) < 4611686018427387904)
    (hpage : Atoi pageStr = some page) (hsize : Atoi pageSizeStr = some pageSize)
    (hp : 1 ≤ page) (hs : 1 ≤ pageSize)
    (hin : (page - 1) * pageSize < (countMatching EqualFold users countryFilter : Int)) :
    ∃ paginatedUsers : List User,
      ListUsers EqualFold rng pageStr pageSizeStr countryFilter
        = some ⟨StatusOK,
            Body.list (countMatching EqualFold users countryFilter) paginatedUsers⟩ ∧
      (paginatedUsers.length : Int)
        = min pageSize
            ((countMatching EqualFold users countryFilter : Int) - (page - 1) * pageSize) ∧
      paginatedUsers
        = ((filterUsers EqualFold rng countryFilter).drop ((page - 1) * pageSize).toNat).take
            (min ((page - 1) * pageSize + pageSize)
                (countMatching EqualFold users countryFilter : Int)
              - (page - 1) * pageSize).toNat := by
  have hlen := filterUsers_length EqualFold users rng hrng countryFilter
  have htot : countMatching EqualFold users countryFilter ≤ users.entries.length := by
    unfold countMatching storedUsers
    exact le_trans (List.countP_le_length _) (le_of_eq (List.length_map _ _))
  have hnn : 0 ≤ (page - 1) * pageSize := mul_nonneg (by omega) (by omega)
  have hsz : page = 1 ∨ pageSize ≤ (page - 1) * pageSize := by
    by_cases h1 : page = 1
    · exact Or.inl h1
    · exact Or.inr (le_mul_of_one_le_left (by omega) (by omega))
  have hmul : page * pageSize = (page - 1) * pageSize + pageSize := by ring
  have hfit : page * pageSize ≤ maxInt := by
    rw [hmul]
    unfold maxInt
    rcases hsz with h1 | h2
    · have hr := (Atoi_inRange _ _ hsize).2
      unfold maxInt at hr
      rw [h1]
      simp only [sub_self, zero_mul, zero_add]
      exact hr
    · omega
  have hrun := listPage_no_overflow EqualFold rng page pageSize countryFilter hp hs hfit
  refine ⟨((filterUsers EqualFold rng countryFilter).drop
      ((page - 1) * pageSize).toNat).take pageSize.toNat, ?_, ?_, ?_⟩
  · unfold ListUsers
    rw [parsePage_of_pos _ _ hpage hp, parsePageSize_of_pos _ _ hsize hs, hrun, hlen]
  · rw [List.length_take, List.length_drop, hlen]
    omega
  · rw [List.take_eq_take, List.length_drop, hlen]
    omega

/-- The test scenario of C1: three UK users and one other, `pageSize = 2`,
second page. -/
theorem ListUsers_in_range_page_witness :
    ∃ paginatedUsers : List User,
      ListUsers asciiEqualFold testRange "2" "2" "UK"
        = some ⟨StatusOK, Body.list (countMatching asciiEqualFold testStore "UK")
            paginatedUsers⟩ ∧
      (paginatedUsers.length : Int)
        = min 2 ((countMatching asciiEqualFold testStore "UK" : Int) - (2 - 1) * 2) ∧
      paginatedUsers
        = ((filterUsers asciiEqualFold testRange "UK").drop ((2 - 1) * 2 : Int).toNat).take
            (min ((2 - 1) * 2 + 2) (countMatching asciiEqualFold testStore "UK" : Int)
              - (2 - 1) * 2).toNat :=
  ListUsers_in_range_page asciiEqualFold testStore testRange "2" "2" "UK" 2 2
    (by decide) (by decide) (by decide) (by decide) (by decide) (by decide) (by decide)

/-- Without overflow, a page beyond the last one answers 200 with the total
and an empty list. -/
theorem ListUsers_beyond_last_page (EqualFold : String → String → Bool) (rng : List User)
    (pageStr pageSizeStr countryFilter : String) (page pageSize : Int)
    (hpage : Atoi pageStr = some page) (hsize : Atoi pageSizeStr = some pageSize)
    (hp : 1 ≤ page) (hs : 1 ≤ pageSize) (hfit : page * pageSize ≤ maxInt)
    (hout : ((filterUsers EqualFold rng countryFilter).length : Int) ≤ (page - 1) * pageSize) :
    ListUsers EqualFold rng pageStr pageSizeStr countryFilter
      = some ⟨StatusOK, Body.list (filterUsers EqualFold rng countryFilter).length []⟩ := by
  unfold ListUsers
  rw [parsePage_of_pos _ _ hpage hp, parsePageSize_of_pos _ _ hsize hs,
    listPage_no_overflow EqualFold rng page pageSize countryFilter hp hs hfit]
  have hdrop : (filterUsers EqualFold rng countryFilter).drop ((page - 1) * pageSize).toNat
      = [] := by
    apply List.drop_eq_nil_of_le
    omega
  rw [hdrop, List.take_nil]

/-- C2: the request `GET /users?page=2147483649&pageSize=4294967296` makes the
slice expression of `ListUsers` panic on every store: both parameters parse,
`(page-1)*pageSize` wraps to `minInt`, the clamp `start >= total` does not
fire and `filteredUsers[start:end]` is taken with a negative `start`.  The
request `page=2&pageSize=9223372036854775807` panics on the test store as
well: there `start + pageSize` wraps below `start`. -/
theorem ListUsers_overflow_panics :
    Atoi "2147483649" = some 2147483649 ∧ Atoi "4294967296" = some 4294967296 ∧
    wrapInt (wrapInt (2147483649 - 1) * 4294967296) = minInt ∧
    (∀ (EqualFold : String → String → Bool) (rng : List User) (countryFilter : String),
      ListUsers EqualFold rng "2147483649" "4294967296" countryFilter = none) ∧
    ListUsers asciiEqualFold testRange "2" "9223372036854775807" "UK" = none := by
  have ha : Atoi "2147483649" = some 2147483649 := by decide
  have hb : Atoi "4294967296" = some 4294967296 := by decide
  have hw : wrapInt (wrapInt (2147483649 - 1) * 4294967296) = minInt := by decide
  refine ⟨ha, hb, hw, ?_, by decide⟩
  intro EqualFold rng countryFilter
  unfold ListUsers
  rw [parsePage_of_pos _ _ ha (by decide), parsePageSize_of_pos _ _ hb (by decide)]
  unfold listPage
  simp only [hw]
  generalize ((filterUsers EqualFold rng countryFilter).length : Int) = total
  have hneg : ¬ (0 ≤ minInt) := by decide
  split_ifs with h1 h2 h3 h4 h5 h6
  all_goals first
    | rfl
    | (exfalso; unfold minInt at *; unfold wrapInt at *; omega)

/-- C3: whenever `ListUsers` answers, it answers 200 with a total equal to the
number of stored users passing the filter, and every user of the returned
page is a stored user passing the filter, whatever `page` and `pageSize`
are; it does answer whenever `page * pageSize` fits a Go `int`; the number
of users passing an empty filter is the number of all stored users, and the
number passing a non-empty filter is the number whose `Country` is
`EqualFold` to it. -/
theorem ListUsers_total_and_filter (EqualFold : String → String → Bool) (users : Store)
    (rng : List User) (hrng : IsRange users rng)
    (pageStr pageSizeStr countryFilter : String) :
    (∀ resp, ListUsers EqualFold rng pageStr pageSizeStr countryFilter = some resp →
      ∃ paginatedUsers : List User,
        resp = ⟨StatusOK,
          Body.list (countMatching EqualFold users countryFilter) paginatedUsers⟩ ∧
        ∀ u ∈ paginatedUsers,
          u ∈ storedUsers users ∧
            (countryFilter = "" ∨ EqualFold u.Country countryFilter = true)) ∧
    (parsePage pageStr * parsePageSize pageSizeStr ≤ maxInt →
      (ListUsers EqualFold rng pageStr pageSizeStr countryFilter).isSome = true) ∧
    (countryFilter = "" →
      countMatching EqualFold users countryFilter = (storedUsers users).length) ∧
    (countryFilter ≠ "" →
      countMatching EqualFold users countryFilter
        = (storedUsers users).countP (fun u => EqualFold u.Country countryFilter)) := by
  refine ⟨?_, ?_, ?_, ?_⟩
  · intro resp hresp
    obtain ⟨paginatedUsers, hr, hmem⟩ := listPage_some _ _ _ _ _ _ hresp
    rw [filterUsers_length EqualFold users rng hrng] at hr
    refine ⟨paginatedUsers, hr, ?_⟩
    intro u hu
    have hf := hmem u hu
    rw [filterUsers_eq_filter, List.mem_filter] at hf
    refine ⟨(List.Perm.mem_iff hrng).mp hf.1, ?_⟩
    have hm := hf.2
    unfold matchesCountry at hm
    simpa using hm
  · intro hfit
    unfold ListUsers
    rw [listPage_no_overflow EqualFold rng _ _ countryFilter (parsePage_bounds pageStr).1
      (parsePageSize_bounds pageSizeStr).1 hfit]
    rfl
  · intro hempty
    unfold countMatching
    rw [List.countP_eq_length]
    intro u _
    simp [matchesCountry, hempty]
  · intro hne
    unfold countMatching
    congr 1
    funext u
    simp [matchesCountry, hne]

/-- C3 on the test store: the filter `UK` gives total 3 and a page of
matching users. -/
theorem ListUsers_total_and_filter_witness :
    IsRange testStore testRange ∧
    (∃ paginatedUsers : List User,
      (⟨StatusOK, Body.list 3 [uk2, uk1]⟩ : Response)
        = ⟨StatusOK, Body.list (countMatching asciiEqualFold testStore "UK") paginatedUsers⟩ ∧
      ∀ u ∈ paginatedUsers,
        u ∈ storedUsers testStore ∧ ("UK" = "" ∨ asciiEqualFold u.Country "UK" = true)) ∧
    (ListUsers asciiEqualFold testRange "1" "2" "UK").isSome = true ∧
    countMatching asciiEqualFold testStore "UK"
      = (storedUsers testStore).countP (fun u => asciiEqualFold u.Country "UK") :=
  ⟨by decide,
   (ListUsers_total_and_filter asciiEqualFold testStore testRange (by decide)
      "1" "2" "UK").1 _ (by decide),
   (ListUsers_total_and_filter asciiEqualFold testStore testRange (by decide)
      "1" "2" "UK").2.1 (by decide),
   (ListUsers_total_and_filter asciiEqualFold testStore testRange (by decide)
      "1" "2" "UK").2.2.2 (by decide)⟩

/-- C9: `ListUsers` runs the listing with `page = n` when the page string
parses to `n ≥ 1` and with `page = 1` otherwise, and with `pageSize = m` when
the pageSize string parses to `m ≥ 1` and with `pageSize = 10` otherwise; the
empty (absent), non-numeric, zero and negative strings all fall under
"otherwise", and a request without the parameters answers as
`page=1&pageSize=10` does. -/
theorem ListUsers_page_defaults (EqualFold : String → String → Bool) (rng : List User)
    (pageStr pageSizeStr countryFilter : String) :
    (∃ page pageSize : Int,
      ListUsers EqualFold rng pageStr pageSizeStr countryFilter
        = listPage EqualFold rng page pageSize countryFilter ∧
      ((∃ n, Atoi pageStr = some n ∧ 1 ≤ n ∧ page = n) ∨
        ((∀ n, Atoi pageStr = some n → n < 1) ∧ page = 1)) ∧
      ((∃ m, Atoi pageSizeStr = some m ∧ 1 ≤ m ∧ pageSize = m) ∨
        ((∀ m, Atoi pageSizeStr = some m → m < 1) ∧ pageSize = 10))) ∧
    ListUsers EqualFold rng "" "" countryFilter
      = ListUsers EqualFold rng "1" "10" countryFilter ∧
    ListUsers EqualFold rng "" "" countryFilter
      = listPage EqualFold rng 1 10 countryFilter ∧
    ListUsers EqualFold rng "abc" "1x" countryFilter
      = listPage EqualFold rng 1 10 countryFilter ∧
    ListUsers EqualFold rng "0" "0" countryFilter
      = listPage EqualFold rng 1 10 countryFilter ∧
    ListUsers EqualFold rng "-3" "-7" countryFilter
      = listPage EqualFold rng 1 10 countryFilter ∧
    ListUsers EqualFold rng "3" "7" countryFilter
      = listPage EqualFold rng 3 7 countryFilter := by
  have h0 : parsePage "" = 1 := by decide
  have h0s : parsePageSize "" = 10 := by decide
  have h1 : parsePage "1" = 1 := by decide
  have h10 : parsePageSize "10" = 10 := by decide
  have ha : parsePage "abc" = 1 := by decide
  have hx : parsePageSize "1x" = 10 := by decide
  have hz : parsePage "0" = 1 := by decide
  have hzs : parsePageSize "0" = 10 := by decide
  have hn : parsePage "-3" = 1 := by decide
  have hns : parsePageSize "-7" = 10 := by decide
  have h3 : parsePage "3" = 3 := by decide
  have h7 : parsePageSize "7" = 7 := by decide
  refine ⟨⟨parsePage pageStr, parsePageSize pageSizeStr, rfl, ?_, ?_⟩, ?_, ?_, ?_, ?_, ?_, ?_⟩
  · unfold parsePage
    cases h : Atoi pageStr with
    | none => exact Or.inr ⟨fun n hn => (by cases hn), rfl⟩
    | some page =>
      simp only
      by_cases hlt : page < 1
      · rw [if_pos hlt]
        exact Or.inr ⟨fun n hn => (by cases hn; exact hlt), rfl⟩
      · rw [if_neg hlt]
        exact Or.inl ⟨page, rfl, by omega, rfl⟩
  · unfold parsePageSize
    cases h : Atoi pageSizeStr with
    | none => exact Or.inr ⟨fun n hn => (by cases hn), rfl⟩
    | some pageSize =>
      simp only
      by_cases hlt : pageSize < 1
      · rw [if_pos hlt]
        exact Or.inr ⟨fun n hn => (by cases hn; exact hlt), rfl⟩
      · rw [if_neg hlt]
        exact Or.inl ⟨pageSize, rfl, by omega, rfl⟩
  · unfold ListUsers
    rw [h0, h0s, h1, h10]
  · unfold ListUsers
    rw [h0, h0s]
  · unfold ListUsers
    rw [ha, hx]
  · unfold ListUsers
    rw [hz, hzs]
  · unfold ListUsers
    rw [hn, hns]
  · unfold ListUsers
    rw [h3, h7]

/-! ## Store handlers -/

theorem wellKeyed_insert (users : Store) (h : WellKeyed users) (k : String) (u : User)
    (hu : u.ID = k) : WellKeyed (users.insert k u) := by
  intro k2 u2 hl
  by_cases hk : k2 = k
  · subst hk
    rw [AList.lookup_insert] at hl
    cases hl
    exact hu
  · rw [AList.lookup_insert_ne hk] at hl
    exact h k2 u2 hl

theorem wellKeyed_erase (users : Store) (h : WellKeyed users) (k : String) :
    WellKeyed (users.erase k) := by
  intro k2 u2 hl
  by_cases hk : k2 = k
  · subst hk
    rw [AList.lookup_erase] at hl
    cases hl
  · rw [AList.lookup_erase_ne hk] at hl
    exact h k2 u2 hl

theorem wellKeyed_of_reachable (users : Store) (h : Reachable users) : WellKeyed users := by
  induction h with
  | init =>
    intro k u hl
    rw [AList.lookup_empty] at hl
    cases hl
  | add _ body newID now₁ now₂ ih =>
    cases body with
    | none => exact ih
    | some p => exact wellKeyed_insert _ ih _ _ rfl
  | update _ path body now ih =>
    cases body with
    | none => exact ih
    | some p =>
      unfold UpdateUser
      simp only
      cases hl : AList.lookup (TrimPrefix path "/users/") _ with
      | none => exact ih
      | some old => exact wellKeyed_insert _ ih _ _ rfl
  | delete _ path ih =>
    unfold DeleteUser
    simp only
    cases hl : AList.lookup (TrimPrefix path "/users/") _ with
    | none => exact ih
    | some old => exact wellKeyed_erase _ ih _

/-- C4: on a store reachable through the handlers, for an id (taken from the
path) that is present and a body that decodes, `UpdateUser` answers 200
with, and stores under that id, a record whose id and created_at are those
of the record stored there before, whose updated_at is the current time, and
whose six other fields are the values of the body, empty when the body omits
them. -/
theorem UpdateUser_replaces (users : Store) (hreach : Reachable users) (path : String)
    (p : Payload) (now : Time) (old : User)
    (hold : users.lookup (TrimPrefix path "/users/") = some old) :
    ∃ updated : User,
      UpdateUser users path (some p) now
        = (users.insert (TrimPrefix path "/users/") updated,
            ⟨StatusOK, Body.user updated⟩) ∧
      (UpdateUser users path (some p) now).1.lookup (TrimPrefix path "/users/")
        = some updated ∧
      updated.ID = old.ID ∧
      updated.CreatedAt = old.CreatedAt ∧
      updated.UpdatedAt = now ∧
      updated.FirstName = p.first_name.getD "" ∧
      updated.LastName = p.last_name.getD "" ∧
      updated.Nickname = p.nickname.getD "" ∧
      updated.Password = p.password.getD "" ∧
      updated.Email = p.email.getD "" ∧
      updated.Country = p.country.getD "" := by
  have hkey : old.ID = TrimPrefix path "/users/" :=
    wellKeyed_of_reachable users hreach _ _ hold
  have hrun : UpdateUser users path (some p) now
      = (users.insert (TrimPrefix path "/users/")
            ⟨TrimPrefix path "/users/", p.first_name.getD "", p.last_name.getD "",
              p.nickname.getD "", p.password.getD "", p.email.getD "",
              p.country.getD "", old.CreatedAt, now⟩,
          ⟨StatusOK, Body.user
            ⟨TrimPrefix path "/users/", p.first_name.getD "", p.last_name.getD "",
              p.nickname.getD "", p.password.getD "", p.email.getD "",
              p.country.getD "", old.CreatedAt, now⟩⟩) := by
    unfold UpdateUser
    simp only [hold]
    rfl
  refine ⟨⟨TrimPrefix path "/users/", p.first_name.getD "", p.last_name.getD "",
      p.nickname.getD "", p.password.getD "", p.email.getD "",
      p.country.getD "", old.CreatedAt, now⟩, hrun, ?_, hkey.symm, rfl, rfl, rfl, rfl, rfl,
      rfl, rfl, rfl⟩
  rw [hrun]
  exact AList.lookup_insert _

/-- The scenario of `TestUpdateUser`, on a store built by `AddUser`: the body
carries a foreign id and created_at and omits the password. -/
theorem UpdateUser_replaces_witness :
    ∃ updated : User,
      UpdateUser (AddUser ∅ (some alice) "u-1" 10 11).1 "/users/u-1"
          (some ⟨some "evil", some "Jane", some "Doe", some "jdoe", none,
            some "janedoe@example.com", some "US", some 99, some 98⟩) 20
        = ((AddUser ∅ (some alice) "u-1" 10 11).1.insert (TrimPrefix "/users/u-1" "/users/")
              updated,
            ⟨StatusOK, Body.user updated⟩) ∧
      (UpdateUser (AddUser ∅ (some alice) "u-1" 10 11).1 "/users/u-1"
          (some ⟨some "evil", some "Jane", some "Doe", some "jdoe", none,
            some "janedoe@example.com", some "US", some 99, some 98⟩) 20).1.lookup
          (TrimPrefix "/users/u-1" "/users/")
        = some updated ∧
      updated.ID = "u-1" ∧
      updated.CreatedAt = 10 ∧
      updated.UpdatedAt = 20 ∧
      updated.FirstName = "Jane" ∧
      updated.LastName = "Doe" ∧
      updated.Nickname = "jdoe" ∧
      updated.Password = "" ∧
      updated.Email = "janedoe@example.com" ∧
      updated.Country = "US" :=
  UpdateUser_replaces (AddUser ∅ (some alice) "u-1" 10 11).1
    (Reachable.add Reachable.init (some alice) "u-1" 10 11) "/users/u-1"
    ⟨some "evil", some "Jane", some "Doe", some "jdoe", none,
      some "janedoe@example.com", some "US", some 99, some 98⟩ 20
    ⟨"u-1", "Alice", "Smith", "alice123", "securepassword", "alice@smith.com", "UK", 10, 11⟩
    (by decide)

/-- What `AddUser` stores and answers for a body that decodes. -/
theorem AddUser_some (users : Store) (p : Payload) (newID : String) (now₁ now₂ : Time) :
    AddUser users (some p) newID now₁ now₂
      = (users.insert newID
            ⟨newID, p.first_name.getD "", p.last_name.getD "", p.nickname.getD "",
              p.password.getD "", p.email.getD "", p.country.getD "", now₁, now₂⟩,
          ⟨StatusCreated, Body.user
            ⟨newID, p.first_name.getD "", p.last_name.getD "", p.nickname.getD "",
              p.password.getD "", p.email.getD "", p.country.getD "", now₁, now₂⟩⟩) := rfl

/-- C5, as amended: for every body that decodes, whatever id and timestamps
it carries, the record that `AddUser` stores and returns has created_at equal
to the first reading of the clock and updated_at equal to the second reading,
so the two are equal exactly when the two readings coincide. -/
theorem AddUser_timestamps (users : Store) (p : Payload) (newID : String)
    (now₁ now₂ : Time) :
    ∃ X : User,
      (AddUser users (some p) newID now₁ now₂).2 = ⟨StatusCreated, Body.user X⟩ ∧
      (AddUser users (some p) newID now₁ now₂).1.lookup newID = some X ∧
      X.CreatedAt = now₁ ∧ X.UpdatedAt = now₂ ∧
      (X.CreatedAt = X.UpdatedAt ↔ now₁ = now₂) := by
  refine ⟨⟨newID, p.first_name.getD "", p.last_name.getD "", p.nickname.getD "",
      p.password.getD "", p.email.getD "", p.country.getD "", now₁, now₂⟩, ?_, ?_, rfl, rfl,
      Iff.rfl⟩
  · rw [AddUser_some]
  · rw [AddUser_some]
    exact AList.lookup_insert _

/-- C5 fails as stated: with the two calls of `time.Now()` returning `10`
and `11`, the record stored and returned has created_at `10` and updated_at
`11`. -/
theorem AddUser_timestamps_differ :
    (AddUser ∅ (some alice) "u-1" 10 11).2
      = ⟨StatusCreated, Body.user
          ⟨"u-1", "Alice", "Smith", "alice123", "securepassword", "alice@smith.com", "UK",
            10, 11⟩⟩ ∧
    (AddUser ∅ (some alice) "u-1" 10 11).1.lookup "u-1"
      = some ⟨"u-1", "Alice", "Smith", "alice123", "securepassword", "alice@smith.com",
          "UK", 10, 11⟩ ∧
    ¬ ∀ (users : Store) (p : Payload) (newID : String) (now₁ now₂ : Time) (X : User),
        (AddUser users (some p) newID now₁ now₂).2 = ⟨StatusCreated, Body.user X⟩ →
        X.CreatedAt = X.UpdatedAt := by
  refine ⟨by decide, by decide, ?_⟩
  intro hall
  have h := hall ∅ alice "u-1" 10 11
    ⟨"u-1", "Alice", "Smith", "alice123", "securepassword", "alice@smith.com", "UK", 10, 11⟩
    (by decide)
  exact absurd h (by decide)

/-- C6: when `AddUser` (on any store, with any body that decodes) returns the
record `X`, a `GetUser` for the path `"/users/" + X.ID` on the resulting store
answers 200 with a record equal to `X`. -/
theorem AddUser_then_GetUser (users : Store) (p : Payload) (newID : String)
    (now₁ now₂ : Time) :
    ∃ X : User,
      (AddUser users (some p) newID now₁ now₂).2 = ⟨StatusCreated, Body.user X⟩ ∧
      GetUser (AddUser users (some p) newID now₁ now₂).1 ("/users/" ++ X.ID)
        = ((AddUser users (some p) newID now₁ now₂).1, ⟨StatusOK, Body.user X⟩) := by
  refine ⟨⟨newID, p.first_name.getD "", p.last_name.getD "", p.nickname.getD "",
      p.password.getD "", p.email.getD "", p.country.getD "", now₁, now₂⟩, ?_, ?_⟩
  · rw [AddUser_some]
  · rw [AddUser_some]
    unfold GetUser
    simp only
    rw [TrimPrefix_append, AList.lookup_insert]

/-- C7: `AddUser` and `UpdateUser` answer 400 and keep the store when the body
does not decode; `GetUser`, `UpdateUser` (body decoded) and `DeleteUser`
answer 404 exactly when the id taken from the path is not a key of the store;
and every answer of the four handlers with a status of 400 or more leaves the
store as it was. -/
theorem errors_leave_store (users : Store) (path newID : String) (body : Option Payload)
    (p : Payload) (now₁ now₂ now : Time) :
    AddUser users none newID now₁ now₂ = (users, ⟨StatusBadRequest, Body.text "Invalid input"⟩) ∧
    UpdateUser users path none now = (users, ⟨StatusBadRequest, Body.text "Invalid input"⟩) ∧
    ((GetUser users path).2.status = StatusNotFound ↔ TrimPrefix path "/users/" ∉ users) ∧
    ((UpdateUser users path (some p) now).2.status = StatusNotFound
      ↔ TrimPrefix path "/users/" ∉ users) ∧
    ((DeleteUser users path).2.status = StatusNotFound ↔ TrimPrefix path "/users/" ∉ users) ∧
    (400 ≤ (AddUser users body newID now₁ now₂).2.status →
      (AddUser users body newID now₁ now₂).1 = users) ∧
    (400 ≤ (GetUser users path).2.status → (GetUser users path).1 = users) ∧
    (400 ≤ (UpdateUser users path body now).2.status →
      (UpdateUser users path body now).1 = users) ∧
    (400 ≤ (DeleteUser users path).2.status → (DeleteUser users path).1 = users) := by
  refine ⟨rfl, rfl, ?_, ?_, ?_, ?_, ?_, ?_, ?_⟩
  · unfold GetUser
    simp only
    cases hl : AList.lookup (TrimPrefix path "/users/") users with
    | none => simpa [httpError] using AList.lookup_eq_none.mp hl
    | some u =>
      have hmem : TrimPrefix path "/users/" ∈ users :=
        AList.lookup_isSome.mp (by rw [hl]; rfl)
      simp [StatusOK, StatusNotFound, hmem]
  · unfold UpdateUser
    simp only
    cases hl : AList.lookup (TrimPrefix path "/users/") users with
    | none => simpa [httpError] using AList.lookup_eq_none.mp hl
    | some u =>
      have hmem : TrimPrefix path "/users/" ∈ users :=
        AList.lookup_isSome.mp (by rw [hl]; rfl)
      simp [StatusOK, StatusNotFound, hmem]
  · unfold DeleteUser
    simp only
    cases hl : AList.lookup (TrimPrefix path "/users/") users with
    | none => simpa [httpError] using AList.lookup_eq_none.mp hl
    | some u =>
      have hmem : TrimPrefix path "/users/" ∈ users :=
        AList.lookup_isSome.mp (by rw [hl]; rfl)
      simp [StatusNoContent, StatusNotFound, hmem]
  · cases body with
    | none => intro _; rfl
    | some q =>
      rw [AddUser_some]
      intro h
      have h2 : 400 ≤ StatusCreated := h
      exact absurd h2 (by decide)
  · intro _
    unfold GetUser
    simp only
    cases AList.lookup (TrimPrefix path "/users/") users <;> rfl
  · cases body with
    | none => intro _; rfl
    | some q =>
      unfold UpdateUser
      simp only
      cases hl : AList.lookup (TrimPrefix path "/users/") users with
      | none => intro _; rfl
      | some u =>
        intro h
        have h2 : 400 ≤ StatusOK := h
        exact absurd h2 (by decide)
  · unfold DeleteUser
    simp only
    cases hl : AList.lookup (TrimPrefix path "/users/") users with
    | none => intro _; rfl
    | some u =>
      intro h
      have h2 : 400 ≤ StatusNoContent := h
      exact absurd h2 (by decide)

/-- C8: for an id (taken from the path) present in the store, `DeleteUser`
answers 204 and leaves the store with the entry for that id erased: the id is
no longer a key, every other key maps to what it mapped to, and a `GetUser`
for the same path answers 404. -/
theorem DeleteUser_removes (users : Store) (path : String)
    (hmem : TrimPrefix path "/users/" ∈ users) :
    DeleteUser users path
      = (users.erase (TrimPrefix path "/users/"), ⟨StatusNoContent, Body.empty⟩) ∧
    (DeleteUser users path).1.lookup (TrimPrefix path "/users/") = none ∧
    (∀ k, k ≠ TrimPrefix path "/users/" →
      (DeleteUser users path).1.lookup k = users.lookup k) ∧
    GetUser (DeleteUser users path).1 path
      = ((DeleteUser users path).1, ⟨StatusNotFound, Body.text "User not found"⟩) := by
  have hrun : DeleteUser users path
      = (users.erase (TrimPrefix path "/users/"), ⟨StatusNoContent, Body.empty⟩) := by
    unfold DeleteUser
    simp only
    cases hl : AList.lookup (TrimPrefix path "/users/") users with
    | none => exact absurd hmem (AList.lookup_eq_none.mp hl)
    | some u => rfl
  refine ⟨hrun, ?_, ?_, ?_⟩
  · rw [hrun]
    exact AList.lookup_erase _ _
  · intro k hk
    rw [hrun]
    exact AList.lookup_erase_ne hk
  · rw [hrun]
    unfold GetUser
    simp only [AList.lookup_erase]
    rfl

/-- The scenario of `TestDeleteUser` on the four-user store. -/
theorem DeleteUser_removes_witness :
    DeleteUser testStore "/users/2"
      = (testStore.erase (TrimPrefix "/users/2" "/users/"),
          ⟨StatusNoContent, Body.empty⟩) ∧
    (DeleteUser testStore "/users/2").1.lookup (TrimPrefix "/users/2" "/users/") = none ∧
    (∀ k, k ≠ TrimPrefix "/users/2" "/users/" →
      (DeleteUser testStore "/users/2").1.lookup k = testStore.lookup k) ∧
    GetUser (DeleteUser testStore "/users/2").1 "/users/2"
      = ((DeleteUser testStore "/users/2").1,
          ⟨StatusNotFound, Body.text "User not found"⟩) :=
  DeleteUser_removes testStore "/users/2" (by decide)

/-- C7 on the four-user store, for the unknown id `9` and the known id `2`. -/
theorem errors_leave_store_witness :
    (GetUser testStore "/users/9").2.status = StatusNotFound ∧
    (GetUser testStore "/users/9").1 = testStore ∧
    (UpdateUser testStore "/users/9" (some alice) 3).2.status = StatusNotFound ∧
    (DeleteUser testStore "/users/9").2.status = StatusNotFound ∧
    (DeleteUser testStore "/users/9").1 = testStore ∧
    (UpdateUser testStore "/users/9" (some alice) 3).1 = testStore ∧
    (AddUser testStore none "u-1" 1 2).1 = testStore ∧
    TrimPrefix "/users/2" "/users/" ∈ testStore :=
  ⟨(errors_leave_store testStore "/users/9" "u-1" none alice 1 2 3).2.2.1.mpr
      (AList.lookup_eq_none.mp (by decide)),
   (errors_leave_store testStore "/users/9" "u-1" none alice 1 2 3).2.2.2.2.2.2.1
      (by decide),
   (errors_leave_store testStore "/users/9" "u-1" none alice 1 2 3).2.2.2.1.mpr
      (AList.lookup_eq_none.mp (by decide)),
   (errors_leave_store testStore "/users/9" "u-1" none alice 1 2 3).2.2.2.2.1.mpr
      (AList.lookup_eq_none.mp (by decide)),
   (errors_leave_store testStore "/users/9" "u-1" none alice 1 2 3).2.2.2.2.2.2.2.2
      (by decide),
   (errors_leave_store testStore "/users/9" "u-1" (some alice) alice 1 2 3).2.2.2.2.2.2.2.1
      (by decide),
   (errors_leave_store testStore "/users/9" "u-1" none alice 1 2 3).2.2.2.2.2.1
      (by decide),
   Classical.not_not.mp (fun hno =>
     absurd ((errors_leave_store testStore "/users/2" "u-1" none alice 1 2 3).2.2.1.mpr hno)
       (by decide))⟩

/-- C9 at the query `page=2&pageSize=x`. -/
theorem ListUsers_page_defaults_witness :
    ∃ page pageSize : Int,
      ListUsers asciiEqualFold testRange "2" "x" "UK"
        = listPage asciiEqualFold testRange page pageSize "UK" ∧
      ((∃ n, Atoi "2" = some n ∧ 1 ≤ n ∧ page = n) ∨
        ((∀ n, Atoi "2" = some n → n < 1) ∧ page = 1)) ∧
      ((∃ m, Atoi "x" = some m ∧ 1 ≤ m ∧ pageSize = m) ∨
        ((∀ m, Atoi "x" = some m → m < 1) ∧ pageSize = 10)) :=
  (ListUsers_page_defaults asciiEqualFold testRange "2" "x" "UK").1

end UserService
